import Mathlib

/-!
Verification of the netgate gateway against its specification.

Shallow embedding conventions:
* Rust wall-clock reads (chrono, Instant, SystemTime) become explicit Nat
  timestamp parameters (milliseconds).
* u32 and u64 counters become Nat (the modelled quantities stay far below
  the wrap-around point; Rust saturating_sub is Nat subtraction).
* f64 delay arithmetic in the retry engine is modelled over the rationals;
  the Rust cast to u64 truncates toward zero and saturates below at zero,
  which for nonnegative values is the floor into Nat.
* Methods taking mutable references are modelled as functions returning the
  updated value (paired with the Rust return value where there is one).
* Random draws and HashMap iteration order are modelled as explicit
  parameters, constrained exactly as the Rust library guarantees them.
-/

namespace Netgate

/-! ## Workflow state machine, from src/business/workflow.rs -/

/-- Order state in the workflow (enum OrderState). -/
inductive OrderState where
  | Pending
  | Validated
  | Processing
  | Completed
  | Failed
  | Cancelled
deriving DecidableEq, Repr

/-- OrderState::can_transition_to, the exact match arm for arm. -/
def OrderState.can_transition_to (s : OrderState) (new_state : OrderState) : Bool :=
  match s, new_state with
  | .Pending, .Validated => true
  | .Pending, .Failed => true
  | .Pending, .Cancelled => true
  | .Validated, .Processing => true
  | .Validated, .Cancelled => true
  | .Processing, .Completed => true
  | .Processing, .Failed => true
  | .Completed, _ => false
  | .Failed, _ => false
  | .Cancelled, _ => false
  | _, _ => false

/-- OrderState::is_terminal. -/
def OrderState.is_terminal (s : OrderState) : Bool :=
  match s with
  | .Completed | .Failed | .Cancelled => true
  | _ => false

/-- WorkflowError from workflow.rs. -/
inductive WorkflowError where
  | invalidTransition (from_ : OrderState) (to_ : OrderState)
  | orderNotFound (id : String)
deriving DecidableEq, Repr

/-- OrderWorkflow entry; timestamps are Nat milliseconds. -/
structure OrderWorkflow where
  order_id : String
  state : OrderState
  created_at : Nat
  updated_at : Nat
  error_message : Option String
  netbox_site_id : Option Int
  tenant_id : String
deriving DecidableEq, Repr

/-- OrderWorkflow::new. -/
def OrderWorkflow.new (order_id : String) (tenant_id : String) (now : Nat) : OrderWorkflow :=
  { order_id := order_id
    state := .Pending
    created_at := now
    updated_at := now
    error_message := none
    netbox_site_id := none
    tenant_id := tenant_id }

/-- OrderWorkflow::transition_to; the mutable receiver becomes an explicit
result pair (the Rust Result, the workflow after the call). -/
def OrderWorkflow.transition_to (w : OrderWorkflow) (new_state : OrderState) (now : Nat) :
    Except WorkflowError Unit × OrderWorkflow :=
  if ¬ w.state.can_transition_to new_state then
    (.error (.invalidTransition w.state new_state), w)
  else
    (.ok (), { w with state := new_state, updated_at := now })

/-- OrderWorkflow::mark_failed. -/
def OrderWorkflow.mark_failed (w : OrderWorkflow) (error : String) (now : Nat) :
    Except WorkflowError Unit × OrderWorkflow :=
  match w.transition_to .Failed now with
  | (.error e, w1) => (.error e, w1)
  | (.ok _, w1) => (.ok (), { w1 with error_message := some error })

/-- OrderWorkflow::mark_completed. -/
def OrderWorkflow.mark_completed (w : OrderWorkflow) (netbox_site_id : Int) (now : Nat) :
    Except WorkflowError Unit × OrderWorkflow :=
  match w.transition_to .Completed now with
  | (.error e, w1) => (.error e, w1)
  | (.ok _, w1) => (.ok (), { w1 with netbox_site_id := some netbox_site_id })

/-- Transition table as the claim spells it out: Pending to Validated, Failed
or Cancelled; Validated to Processing or Cancelled; Processing to Completed
or Failed. Written from the claim text, to be compared with the code. -/
def specWorkflowEdge (from_ : OrderState) (to_ : OrderState) : Prop :=
  (from_ = .Pending ∧ (to_ = .Validated ∨ to_ = .Failed ∨ to_ = .Cancelled)) ∨
  (from_ = .Validated ∧ (to_ = .Processing ∨ to_ = .Cancelled)) ∨
  (from_ = .Processing ∧ (to_ = .Completed ∨ to_ = .Failed))

instance (a b : OrderState) : Decidable (specWorkflowEdge a b) := by
  unfold specWorkflowEdge
  infer_instance

/-- Claim C2: transition_to succeeds exactly on the edges of the spec table,
no transition leaves a terminal state, and a disallowed transition returns
InvalidTransition with the pair of states while the workflow is unchanged. -/
theorem C2_workflow_transition_table (w : OrderWorkflow) (s : OrderState) (now : Nat) :
    ((w.transition_to s now).1.isOk = true ↔ specWorkflowEdge w.state s) ∧
    (w.state.is_terminal = true → (w.transition_to s now).1.isOk = false) ∧
    (¬ specWorkflowEdge w.state s →
      w.transition_to s now = (.error (.invalidTransition w.state s), w)) := by
  have htab : w.state.can_transition_to s = true ↔ specWorkflowEdge w.state s := by
    cases hw : w.state <;> cases hs : s <;>
      simp [OrderState.can_transition_to, specWorkflowEdge]
  refine ⟨?_, ?_, ?_⟩
  · rw [← htab]
    unfold OrderWorkflow.transition_to
    by_cases h : w.state.can_transition_to s = true <;> simp [h, Except.isOk, Except.toBool]
  · intro hterm
    unfold OrderWorkflow.transition_to
    have h : w.state.can_transition_to s = false := by
      cases hw : w.state <;> cases hs : s <;>
        simp_all [OrderState.is_terminal, OrderState.can_transition_to]
    simp [h, Except.isOk, Except.toBool]
  · intro hne
    have h : w.state.can_transition_to s = false := by
      rcases Bool.eq_false_or_eq_true (w.state.can_transition_to s) with h | h
      · exact absurd (htab.mp h) hne
      · exact h
    unfold OrderWorkflow.transition_to
    simp [h]

/-- Witness for C2 at a concrete input: a Completed workflow rejects a
transition to Pending, unchanged. -/
theorem C2_workflow_transition_table_witness :
    (OrderWorkflow.transition_to
        { order_id := "o1", state := .Completed, created_at := 0, updated_at := 0,
          error_message := none, netbox_site_id := none, tenant_id := "t1" }
        .Pending 5) =
      (.error (.invalidTransition .Completed .Pending),
        { order_id := "o1", state := .Completed, created_at := 0, updated_at := 0,
          error_message := none, netbox_site_id := none, tenant_id := "t1" }) :=
  (C2_workflow_transition_table
      { order_id := "o1", state := .Completed, created_at := 0, updated_at := 0,
        error_message := none, netbox_site_id := none, tenant_id := "t1" }
      .Pending 5).2.2 (by decide)

/-! ## Circuit breaker, from src/resilience/circuit_breaker.rs -/

/-- Circuit breaker state (enum CircuitState). -/
inductive CircuitState where
  | Closed
  | Open
  | HalfOpen
deriving DecidableEq, Repr

/-- CircuitBreakerConfig; durations are Nat milliseconds. -/
structure CircuitBreakerConfig where
  failure_threshold : Nat
  success_threshold : Nat
  timeout_duration : Nat
  window_duration : Nat
deriving DecidableEq, Repr

/-- CircuitBreakerConfig::default. -/
def CircuitBreakerConfig.default : CircuitBreakerConfig :=
  { failure_threshold := 5
    success_threshold := 2
    timeout_duration := 60000
    window_duration := 60000 }

/-- CircuitBreakerState: the atomic counters of the breaker. -/
structure CircuitBreakerState where
  state : CircuitState
  failure_count : Nat
  success_count : Nat
  last_failure_time : Nat
  state_changed_time : Nat
deriving DecidableEq, Repr

/-- CircuitBreakerState::new. -/
def CircuitBreakerState.new : CircuitBreakerState :=
  { state := .Closed
    failure_count := 0
    success_count := 0
    last_failure_time := 0
    state_changed_time := 0 }

/-- CircuitBreakerState::set_state: stores the state and stamps
state_changed_time with the current time. -/
def CircuitBreakerState.set_state (s : CircuitBreakerState) (new_state : CircuitState)
    (now : Nat) : CircuitBreakerState :=
  { s with state := new_state, state_changed_time := now }

/-- CircuitBreaker::allow_request; returns the Rust Bool and the breaker
state after the call. Rust saturating_sub on u64 is Nat subtraction. -/
def allow_request (cfg : CircuitBreakerConfig) (s : CircuitBreakerState) (now : Nat) :
    Bool × CircuitBreakerState :=
  match s.state with
  | .Closed => (true, s)
  | .Open =>
    if now - s.state_changed_time ≥ cfg.timeout_duration then
      (true, { s.set_state .HalfOpen now with success_count := 0 })
    else
      (false, s)
  | .HalfOpen => (true, s)

/-- CircuitBreaker::record_success. -/
def record_success (cfg : CircuitBreakerConfig) (s : CircuitBreakerState) (now : Nat) :
    CircuitBreakerState :=
  match s.state with
  | .Closed => { s with failure_count := 0 }
  | .HalfOpen =>
    let success_count := s.success_count + 1
    if success_count ≥ cfg.success_threshold then
      { { s with success_count := success_count }.set_state .Closed now with
          failure_count := 0, success_count := 0 }
    else
      { s with success_count := success_count }
  | .Open => s

/-- CircuitBreaker::record_failure. -/
def record_failure (cfg : CircuitBreakerConfig) (s : CircuitBreakerState) (now : Nat) :
    CircuitBreakerState :=
  match s.state with
  | .Closed =>
    let failure_count := s.failure_count + 1
    let s1 := { s with failure_count := failure_count, last_failure_time := now }
    if failure_count ≥ cfg.failure_threshold then
      s1.set_state .Open now
    else
      s1
  | .HalfOpen => { s.set_state .Open now with success_count := 0 }
  | .Open => { s with last_failure_time := now }

/-- A run of consecutive record_failure calls at the given times, with no
intervening record_success. -/
def record_failures (cfg : CircuitBreakerConfig) :
    CircuitBreakerState → List Nat → CircuitBreakerState
  | s, [] => s
  | s, t :: ts => record_failures cfg (record_failure cfg s t) ts

theorem record_failures_opens (cfg : CircuitBreakerConfig) :
    ∀ (ts : List Nat) (t : Nat) (s : CircuitBreakerState),
      s.state = .Closed →
      s.failure_count + (t :: ts).length = cfg.failure_threshold →
      (record_failures cfg s (t :: ts)).state = .Open := by
  intro ts
  induction ts with
  | nil =>
    intro t s hst hcnt
    simp only [List.length_singleton] at hcnt
    have hge : s.failure_count + 1 ≥ cfg.failure_threshold := by omega
    simp [record_failures, record_failure, hst, hge, CircuitBreakerState.set_state]
  | cons t2 ts ih =>
    intro t s hst hcnt
    simp only [List.length_cons] at hcnt
    have hlt : ¬ s.failure_count + 1 ≥ cfg.failure_threshold := by omega
    have hstep : record_failure cfg s t =
        { s with failure_count := s.failure_count + 1, last_failure_time := t } := by
      simp [record_failure, hst, hlt]
    show (record_failures cfg (record_failure cfg s t) (t2 :: ts)).state = .Open
    rw [hstep]
    exact ih t2 _ (by simp [hst]) (by simp; omega)

/-- Claim C3 (amended): starting from a Closed breaker with zero failure
count, after failure_threshold consecutive record_failure calls the breaker
is Open; while the cooldown has not elapsed since the state change every
allow_request is rejected and nothing changes; once the cooldown has
elapsed the next allow_request is admitted and the breaker is HalfOpen. -/
theorem C3_breaker_open_then_halfopen (cfg : CircuitBreakerConfig)
    (s : CircuitBreakerState) (t : Nat) (ts : List Nat)
    (hclosed : s.state = .Closed) (hcount : s.failure_count = 0)
    (hlen : (t :: ts).length = cfg.failure_threshold) :
    (record_failures cfg s (t :: ts)).state = .Open ∧
    (∀ now, now - (record_failures cfg s (t :: ts)).state_changed_time < cfg.timeout_duration →
      allow_request cfg (record_failures cfg s (t :: ts)) now =
        (false, record_failures cfg s (t :: ts))) ∧
    (∀ now, cfg.timeout_duration ≤ now - (record_failures cfg s (t :: ts)).state_changed_time →
      (allow_request cfg (record_failures cfg s (t :: ts)) now).1 = true ∧
      (allow_request cfg (record_failures cfg s (t :: ts)) now).2.state = .HalfOpen) := by
  have hopen : (record_failures cfg s (t :: ts)).state = .Open :=
    record_failures_opens cfg ts t s hclosed (by omega)
  refine ⟨hopen, ?_, ?_⟩
  · intro now hltcd
    have : ¬ now - (record_failures cfg s (t :: ts)).state_changed_time ≥
        cfg.timeout_duration := by omega
    simp [allow_request, hopen, this]
  · intro now hgecd
    simp [allow_request, hopen, hgecd, CircuitBreakerState.set_state]

/-- Witness for C3 at a concrete input: threshold 2, failures at 3 and 4 ms,
cooldown 5 ms; the breaker is Open, a call at 8 ms is rejected, a call at
9 ms is admitted into HalfOpen. -/
theorem C3_breaker_open_then_halfopen_witness :
    (record_failures ⟨2, 2, 5, 5⟩ .new [3, 4]).state = .Open ∧
    allow_request ⟨2, 2, 5, 5⟩ (record_failures ⟨2, 2, 5, 5⟩ .new [3, 4]) 8 =
      (false, record_failures ⟨2, 2, 5, 5⟩ .new [3, 4]) ∧
    (allow_request ⟨2, 2, 5, 5⟩ (record_failures ⟨2, 2, 5, 5⟩ .new [3, 4]) 9).1 = true ∧
    (allow_request ⟨2, 2, 5, 5⟩ (record_failures ⟨2, 2, 5, 5⟩ .new [3, 4]) 9).2.state =
      .HalfOpen := by
  have h := C3_breaker_open_then_halfopen ⟨2, 2, 5, 5⟩ .new 3 [4]
    (by decide) (by decide) (by decide)
  exact ⟨h.1, h.2.1 8 (by decide), h.2.2 9 (by decide)⟩

/-- Counterexample to C3 as stated: after the cooldown has elapsed it is not
true that exactly one call is admitted. With threshold 1 and cooldown 5 ms
the breaker opened at time 0; two back-to-back allow_request calls at time
5, with no outcome recorded in between, are both admitted (the HalfOpen
state admits every request). -/
theorem C3_counterexample_halfopen_admits_more :
    (allow_request ⟨1, 2, 5, 5⟩ (record_failure ⟨1, 2, 5, 5⟩ .new 0) 5).1 = true ∧
    (allow_request ⟨1, 2, 5, 5⟩
        (allow_request ⟨1, 2, 5, 5⟩ (record_failure ⟨1, 2, 5, 5⟩ .new 0) 5).2 5).1 = true ∧
    (allow_request ⟨1, 2, 5, 5⟩
        (allow_request ⟨1, 2, 5, 5⟩ (record_failure ⟨1, 2, 5, 5⟩ .new 0) 5).2 5).2.state =
      .HalfOpen := by
  decide

/-! ## Retry engine, from src/resilience/retry.rs -/

/-- RetryConfig; the f64 backoff multiplier is modelled over the rationals,
delays are Nat milliseconds. -/
structure RetryConfig where
  max_attempts : Nat
  initial_delay_ms : Nat
  max_delay_ms : Nat
  backoff_multiplier : ℚ
  use_jitter : Bool
deriving DecidableEq, Repr

/-- RetryConfig::default. -/
def RetryConfig.default : RetryConfig :=
  { max_attempts := 3
    initial_delay_ms := 100
    max_delay_ms := 5000
    backoff_multiplier := 2
    use_jitter := true }

/-- The deterministic part of RetryConfig::calculate_delay: the base delay
capped at max_delay_ms, then cast to u64. The Rust as-cast truncates toward
zero and saturates below at zero, which is Int.floor followed by Int.toNat.
The retry loop only calls this with attempt at least 1. -/
def RetryConfig.calculate_delay_base (cfg : RetryConfig) (attempt : Nat) : Nat :=
  (⌊min ((cfg.initial_delay_ms : ℚ) * cfg.backoff_multiplier ^ (attempt - 1))
      ((cfg.max_delay_ms : ℚ))⌋).toNat

/-- RetryConfig::calculate_delay. The fastrand draw from the closed range
zero to jitter_range times two becomes the explicit argument draw;
saturating_sub on u64 is Nat subtraction. -/
def RetryConfig.calculate_delay (cfg : RetryConfig) (attempt : Nat) (draw : Nat) : Nat :=
  let delay_ms := cfg.calculate_delay_base attempt
  if cfg.use_jitter then
    let jitter_range := delay_ms / 2
    (delay_ms - jitter_range) + draw
  else
    delay_ms

/-- The retry loop of retry_with_backoff, one effectful call per attempt.
The operation is modelled as the sequence of outcomes it would produce on
its successive invocations; the result pairs the value the Rust function
returns (none models the unreachable expect on an empty last error, hit
only when max_attempts is zero) with the number of invocations made. -/
def retryGo {E T : Type} (retryable : E → Bool) (op : Nat → Except E T) :
    Nat → Nat → Option E → Option (Except E T) × Nat
  | _, 0, last => (last.map Except.error, 0)
  | attempt, n + 1, _ =>
    match op attempt with
    | .ok v => (some (.ok v), 1)
    | .error e =>
      if retryable e then
        let r := retryGo retryable op (attempt + 1) n (some e)
        (r.1, r.2 + 1)
      else
        (some (.error e), 1)

/-- retry_with_backoff: attempts run from 1 to max_attempts. -/
def retry_with_backoff {E T : Type} (cfg : RetryConfig) (retryable : E → Bool)
    (op : Nat → Except E T) : Option (Except E T) × Nat :=
  retryGo retryable op 1 cfg.max_attempts none

theorem retryGo_succ {E T : Type} (retryable : E → Bool) (op : Nat → Except E T)
    (a n : Nat) (last : Option E) :
    retryGo retryable op a (n + 1) last =
      match op a with
      | .ok v => (some (.ok v), 1)
      | .error e =>
        if retryable e then
          ((retryGo retryable op (a + 1) n (some e)).1,
            (retryGo retryable op (a + 1) n (some e)).2 + 1)
        else
          (some (.error e), 1) := rfl

theorem retryGo_count_le {E T : Type} (retryable : E → Bool) (op : Nat → Except E T) :
    ∀ (n a : Nat) (last : Option E), (retryGo retryable op a n last).2 ≤ n := by
  intro n
  induction n with
  | zero => intro a last; simp [retryGo]
  | succ n ih =>
    intro a last
    unfold retryGo
    cases hop : op a with
    | ok v => simp
    | error e =>
      by_cases hr : retryable e = true
      · simpa [hop, hr] using Nat.succ_le_succ (ih (a + 1) (some e))
      · simp [hop, hr]

theorem retryGo_nonretryable {E T : Type} (retryable : E → Bool) (op : Nat → Except E T)
    (e : E) (he : retryable e = false) :
    ∀ (m a n : Nat) (last : Option E),
      (∀ j, a ≤ j → j < a + m → ∃ ej, op j = .error ej ∧ retryable ej = true) →
      op (a + m) = .error e → a + m < a + n →
      retryGo retryable op a n last = (some (.error e), m + 1) := by
  intro m
  induction m with
  | zero =>
    intro a n last _ hop hlt
    obtain ⟨n', rfl⟩ : ∃ n', n = n' + 1 := ⟨n - 1, by omega⟩
    simp only [Nat.add_zero] at hop
    simp [retryGo, hop, he]
  | succ m ih =>
    intro a n last hj hop hlt
    obtain ⟨n', rfl⟩ : ∃ n', n = n' + 1 := ⟨n - 1, by omega⟩
    obtain ⟨ea, hea, hra⟩ := hj a (Nat.le_refl a) (by omega)
    have hrec := ih (a + 1) n' (some ea)
      (fun j h1 h2 => hj j (by omega) (by omega))
      (by simpa [Nat.add_comm, Nat.add_assoc, Nat.add_left_comm] using hop)
      (by omega)
    simp [retryGo, hea, hra, hrec]

theorem retryGo_exhausts {E T : Type} (retryable : E → Bool) (op : Nat → Except E T)
    (e : E) :
    ∀ (n a : Nat) (last : Option E), 1 ≤ n →
      (∀ j, a ≤ j → j < a + n → ∃ ej, op j = .error ej ∧ retryable ej = true) →
      op (a + n - 1) = .error e →
      retryGo retryable op a n last = (some (.error e), n) := by
  intro n
  induction n with
  | zero => intro a last h; omega
  | succ n ih =>
    intro a last _ hj hop
    obtain ⟨ea, hea, hra⟩ := hj a (Nat.le_refl a) (by omega)
    cases n with
    | zero =>
      have : a + 1 - 1 = a := by omega
      rw [this] at hop
      rw [hop] at hea
      cases hea
      simp [retryGo, hop, hra]
    | succ n' =>
      have hrec := ih (a + 1) (some ea) (by omega)
        (fun j h1 h2 => hj j (by omega) (by omega))
        (by have : a + 1 + (n' + 1) - 1 = a + (n' + 1 + 1) - 1 := by omega
            rw [this]; exact hop)
      rw [retryGo_succ, hea]
      simp [hra, hrec]

/-- Claim C4 (amended): retry_with_backoff invokes the operation at most
max_attempts times; if the attempts before k all fail with retryable errors
and attempt k fails with a non-retryable error, exactly k invocations are
made and that error is returned; and when max_attempts is at least one and
every attempt fails with a retryable error, the error of the last attempt
is returned after exactly max_attempts invocations. -/
theorem C4_retry_bounds {E T : Type} (cfg : RetryConfig) (retryable : E → Bool)
    (op : Nat → Except E T) :
    (retry_with_backoff cfg retryable op).2 ≤ cfg.max_attempts ∧
    (∀ k e, 1 ≤ k → k ≤ cfg.max_attempts →
      (∀ j, 1 ≤ j → j < k → ∃ ej, op j = .error ej ∧ retryable ej = true) →
      op k = .error e → retryable e = false →
      retry_with_backoff cfg retryable op = (some (.error e), k)) ∧
    (∀ e, 1 ≤ cfg.max_attempts →
      (∀ j, 1 ≤ j → j ≤ cfg.max_attempts → ∃ ej, op j = .error ej ∧ retryable ej = true) →
      op cfg.max_attempts = .error e →
      retry_with_backoff cfg retryable op = (some (.error e), cfg.max_attempts)) := by
  refine ⟨retryGo_count_le retryable op cfg.max_attempts 1 none, ?_, ?_⟩
  · intro k e hk1 hkn hj hop hnr
    have := retryGo_nonretryable retryable op e hnr (k - 1) 1 cfg.max_attempts none
      (fun j h1 h2 => hj j h1 (by omega))
      (by have : 1 + (k - 1) = k := by omega
          rw [this]; exact hop)
      (by omega)
    have hk : k - 1 + 1 = k := by omega
    rwa [hk] at this
  · intro e hn hj hop
    exact retryGo_exhausts retryable op e cfg.max_attempts 1 none hn
      (fun j h1 h2 => hj j h1 (by omega))
      (by have : 1 + cfg.max_attempts - 1 = cfg.max_attempts := by omega
          rw [this]; exact hop)

/-- Witness for C4 at a concrete input: three attempts, every attempt fails
with a retryable error, the last error is surfaced after three calls. -/
theorem C4_retry_bounds_witness :
    retry_with_backoff ⟨3, 100, 5000, 2, false⟩ (fun _ : Nat => true)
      (fun j => (.error j : Except Nat Nat)) = (some (.error 3), 3) :=
  (C4_retry_bounds ⟨3, 100, 5000, 2, false⟩ (fun _ : Nat => true)
      (fun j => (.error j : Except Nat Nat))).2.2 3 (by decide)
    (fun j h1 h2 => ⟨j, rfl, rfl⟩) rfl

/-- Counterexample to C4 as stated: with max_attempts zero the operation is
never invoked, yet the function does not return the error of any
invocation; the Rust expect on the empty last error aborts instead, which
the model renders as none. -/
theorem C4_counterexample_zero_attempts :
    retry_with_backoff ⟨0, 100, 5000, 2, false⟩ (fun _ : Bool => true)
      (fun _ => (.error false : Except Bool Nat)) = (none, 0) ∧
    (∀ e : Bool,
      (retry_with_backoff ⟨0, 100, 5000, 2, false⟩ (fun _ : Bool => true)
        (fun _ => (.error false : Except Bool Nat))).1 ≠ some (.error e)) := by
  constructor
  · rfl
  · intro e
    simp [retry_with_backoff, retryGo]

/-- Claim C5 (amended): without jitter the delay for attempt k is the
truncation of min of initial_delay times multiplier to the k minus 1, and
max_delay; with jitter the delay lies between d minus half of d and d plus
half of d — within the band from half of d to three halves of d — but it is
not clamped to max_delay: it can exceed max_delay by up to half of d. -/
theorem C5_delay_formula (cfg : RetryConfig) (k : Nat) (draw : Nat)
    (_hk : 1 ≤ k) (hmul : 0 ≤ cfg.backoff_multiplier)
    (hdraw : draw ≤ 2 * (cfg.calculate_delay_base k / 2)) :
    (cfg.use_jitter = false → cfg.calculate_delay k draw = cfg.calculate_delay_base k) ∧
    ((cfg.calculate_delay_base k : ℚ) ≤
        min ((cfg.initial_delay_ms : ℚ) * cfg.backoff_multiplier ^ (k - 1))
          (cfg.max_delay_ms : ℚ) ∧
      min ((cfg.initial_delay_ms : ℚ) * cfg.backoff_multiplier ^ (k - 1))
          (cfg.max_delay_ms : ℚ) <
        (cfg.calculate_delay_base k : ℚ) + 1) ∧
    cfg.calculate_delay_base k ≤ cfg.max_delay_ms ∧
    (cfg.use_jitter = true →
      cfg.calculate_delay_base k - cfg.calculate_delay_base k / 2 ≤
        cfg.calculate_delay k draw ∧
      cfg.calculate_delay k draw ≤
        cfg.calculate_delay_base k + cfg.calculate_delay_base k / 2 ∧
      cfg.calculate_delay_base k ≤ 2 * cfg.calculate_delay k draw ∧
      2 * cfg.calculate_delay k draw ≤ 3 * cfg.calculate_delay_base k ∧
      cfg.calculate_delay k draw ≤ cfg.max_delay_ms + cfg.max_delay_ms / 2) := by
  set q : ℚ := min ((cfg.initial_delay_ms : ℚ) * cfg.backoff_multiplier ^ (k - 1))
    (cfg.max_delay_ms : ℚ) with hq
  have hq0 : 0 ≤ q := by
    apply le_min
    · exact mul_nonneg (by positivity) (pow_nonneg hmul _)
    · positivity
  have hfl0 : 0 ≤ ⌊q⌋ := Int.floor_nonneg.mpr hq0
  have hdq : (cfg.calculate_delay_base k : ℚ) = (⌊q⌋ : ℚ) := by
    unfold RetryConfig.calculate_delay_base
    rw [← hq]
    exact_mod_cast congrArg (fun z : ℤ => (z : ℚ)) (Int.toNat_of_nonneg hfl0)
  have hlow : (cfg.calculate_delay_base k : ℚ) ≤ q := by
    rw [hdq]; exact Int.floor_le q
  have hhigh : q < (cfg.calculate_delay_base k : ℚ) + 1 := by
    rw [hdq]; exact Int.lt_floor_add_one q
  have hdmax : cfg.calculate_delay_base k ≤ cfg.max_delay_ms := by
    have h1 : (cfg.calculate_delay_base k : ℚ) ≤ (cfg.max_delay_ms : ℚ) :=
      le_trans hlow (min_le_right _ _)
    exact_mod_cast h1
  refine ⟨?_, ⟨hlow, hhigh⟩, hdmax, ?_⟩
  · intro hj
    simp [RetryConfig.calculate_delay, hj]
  · intro hj
    simp only [RetryConfig.calculate_delay, hj, if_true]
    refine ⟨by omega, by omega, by omega, by omega, by omega⟩

/-- Witness for C5 at a concrete input: the default-shaped config with
initial delay 100 ms, cap 5000 ms, multiplier 2 and jitter on; attempt 2,
draw 100 (the maximum draw for base delay 200). -/
theorem C5_delay_formula_witness :
    RetryConfig.calculate_delay_base ⟨3, 100, 5000, 2, true⟩ 2 ≤ 5000 ∧
    RetryConfig.calculate_delay ⟨3, 100, 5000, 2, true⟩ 2 100 ≤
      RetryConfig.calculate_delay_base ⟨3, 100, 5000, 2, true⟩ 2 +
        RetryConfig.calculate_delay_base ⟨3, 100, 5000, 2, true⟩ 2 / 2 := by
  have h := C5_delay_formula ⟨3, 100, 5000, 2, true⟩ 2 100 (by decide) (by norm_num)
    (by unfold RetryConfig.calculate_delay_base; norm_num; decide)
  exact ⟨h.2.2.1, (h.2.2.2 rfl).2.1⟩

/-- Counterexample to C5 as stated: with initial delay 1000 ms, cap
1000 ms, multiplier 2 and jitter on, attempt 1 has base delay 1000 and the
maximum legal draw 1000 yields a delay of 1500 ms, strictly above
max_delay — the jittered delay is not clamped to max_delay. -/
theorem C5_counterexample_jitter_exceeds_max :
    RetryConfig.calculate_delay_base ⟨3, 1000, 1000, 2, true⟩ 1 = 1000 ∧
    1000 ≤ 2 * (RetryConfig.calculate_delay_base ⟨3, 1000, 1000, 2, true⟩ 1 / 2) ∧
    RetryConfig.calculate_delay ⟨3, 1000, 1000, 2, true⟩ 1 1000 = 1500 ∧
    1000 < RetryConfig.calculate_delay ⟨3, 1000, 1000, 2, true⟩ 1 1000 := by
  have hbase : RetryConfig.calculate_delay_base ⟨3, 1000, 1000, 2, true⟩ 1 = 1000 := by
    unfold RetryConfig.calculate_delay_base
    norm_num
    decide
  have hdel : RetryConfig.calculate_delay ⟨3, 1000, 1000, 2, true⟩ 1 1000 = 1500 := by
    simp only [RetryConfig.calculate_delay, hbase]
    norm_num
  exact ⟨hbase, by omega, hdel, by omega⟩

/-! ## Fresh cache, from src/cache/store.rs

The HashMap store is modelled as an association list with unique keys; the
unspecified iteration order of keys, read by the eviction code through
keys next, is an explicit pick function constrained exactly as the Rust
HashMap guarantees: on a nonempty map it yields some key of the map. -/

/-- CacheEntry with its expiration instant (Nat milliseconds). -/
structure CacheEntry (V : Type) where
  value : V
  expires_at : Nat
  created_at : Nat
deriving DecidableEq, Repr

/-- CacheEntry::new. -/
def CacheEntry.new {V : Type} (value : V) (ttl : Nat) (now : Nat) : CacheEntry V :=
  { value := value, expires_at := now + ttl, created_at := now }

/-- CacheEntry::is_expired at an observation instant. -/
def CacheEntry.is_expired {V : Type} (e : CacheEntry V) (now : Nat) : Bool :=
  now > e.expires_at

/-- HashMap::get on the association-list model. -/
def storeGet {K V : Type} [DecidableEq K] :
    List (K × CacheEntry V) → K → Option (CacheEntry V)
  | [], _ => none
  | (k1, e) :: rest, k => if k1 = k then some e else storeGet rest k

/-- HashMap::insert: replaces in place or appends a fresh key. -/
def storeInsert {K V : Type} [DecidableEq K] :
    List (K × CacheEntry V) → K → CacheEntry V → List (K × CacheEntry V)
  | [], k, e => [(k, e)]
  | (k1, e1) :: rest, k, e =>
    if k1 = k then (k, e) :: rest else (k1, e1) :: storeInsert rest k e

/-- HashMap::remove. -/
def storeRemove {K V : Type} [DecidableEq K] :
    List (K × CacheEntry V) → K → List (K × CacheEntry V)
  | [], _ => []
  | (k1, e1) :: rest, k =>
    if k1 = k then storeRemove rest k else (k1, e1) :: storeRemove rest k

/-- The in-memory cache with TTL support (struct Cache). -/
structure Cache (K V : Type) where
  store : List (K × CacheEntry V)
  default_ttl : Nat
  max_size : Option Nat
deriving DecidableEq, Repr

/-- Cache::new. -/
def Cache.new (K V : Type) (default_ttl : Nat) : Cache K V :=
  { store := [], default_ttl := default_ttl, max_size := none }

/-- Cache::with_max_size. -/
def Cache.with_max_size (K V : Type) (default_ttl : Nat) (max_size : Nat) : Cache K V :=
  { store := [], default_ttl := default_ttl, max_size := some max_size }

/-- Cache::get: lazy expiry, the expired entry is removed on first touch.
Returns the Rust return value together with the cache after the call. -/
def Cache.get {K V : Type} [DecidableEq K] (c : Cache K V) (k : K) (now : Nat) :
    Option V × Cache K V :=
  match storeGet c.store k with
  | none => (none, c)
  | some e =>
    if e.is_expired now then
      (none, { c with store := storeRemove c.store k })
    else
      (some e.value, c)

/-- Cache::put_with_ttl; pick is the first key that HashMap keys iteration
yields, used by the eviction branch. -/
def Cache.put_with_ttl {K V : Type} [DecidableEq K]
    (pick : List (K × CacheEntry V) → Option K) (c : Cache K V)
    (k : K) (v : V) (ttl : Nat) (now : Nat) : Cache K V :=
  let store :=
    match c.max_size with
    | some max_size =>
      if max_size ≤ c.store.length ∧ (storeGet c.store k).isNone = true then
        match pick c.store with
        | some oldest_key => storeRemove c.store oldest_key
        | none => c.store
      else
        c.store
    | none => c.store
  { c with store := storeInsert store k (CacheEntry.new v ttl now) }

/-- Cache::put (default TTL). -/
def Cache.put {K V : Type} [DecidableEq K]
    (pick : List (K × CacheEntry V) → Option K) (c : Cache K V)
    (k : K) (v : V) (now : Nat) : Cache K V :=
  c.put_with_ttl pick k v c.default_ttl now

/-- Cache::invalidate. -/
def Cache.invalidate {K V : Type} [DecidableEq K] (c : Cache K V) (k : K) : Cache K V :=
  { c with store := storeRemove c.store k }

/-- Cache::clear. -/
def Cache.clear {K V : Type} (c : Cache K V) : Cache K V :=
  { c with store := [] }

/-- One client-visible cache operation, with its wall-clock instant. -/
inductive CacheOp (K V : Type) where
  | put (k : K) (v : V) (now : Nat)
  | putWithTtl (k : K) (v : V) (ttl : Nat) (now : Nat)
  | get (k : K) (now : Nat)
  | invalidate (k : K)
  | clear
deriving DecidableEq, Repr

/-- Apply one operation to the cache. -/
def Cache.apply {K V : Type} [DecidableEq K]
    (pick : List (K × CacheEntry V) → Option K) (c : Cache K V) :
    CacheOp K V → Cache K V
  | .put k v now => c.put pick k v now
  | .putWithTtl k v ttl now => c.put_with_ttl pick k v ttl now
  | .get k now => (c.get k now).2
  | .invalidate k => c.invalidate k
  | .clear => c.clear

/-- Run a sequence of operations. -/
def Cache.run {K V : Type} [DecidableEq K]
    (pick : List (K × CacheEntry V) → Option K) (c : Cache K V)
    (ops : List (CacheOp K V)) : Cache K V :=
  ops.foldl (Cache.apply pick) c

theorem storeGet_storeRemove_self {K V : Type} [DecidableEq K] :
    ∀ (s : List (K × CacheEntry V)) (k : K), storeGet (storeRemove s k) k = none := by
  intro s k
  induction s with
  | nil => rfl
  | cons p rest ih =>
    obtain ⟨k1, e1⟩ := p
    by_cases h : k1 = k
    · simpa [storeRemove, h] using ih
    · simpa [storeRemove, storeGet, h] using ih

theorem storeRemove_length_le {K V : Type} [DecidableEq K] :
    ∀ (s : List (K × CacheEntry V)) (k : K), (storeRemove s k).length ≤ s.length := by
  intro s k
  induction s with
  | nil => simp [storeRemove]
  | cons p rest ih =>
    obtain ⟨k1, e1⟩ := p
    by_cases h : k1 = k
    · simp only [storeRemove, h, if_true, List.length_cons]
      omega
    · simp only [storeRemove, h, if_false, List.length_cons]
      omega

theorem storeRemove_length_lt {K V : Type} [DecidableEq K] :
    ∀ (s : List (K × CacheEntry V)) (k : K), k ∈ s.map Prod.fst →
      (storeRemove s k).length < s.length := by
  intro s k hk
  induction s with
  | nil => simp at hk
  | cons p rest ih =>
    obtain ⟨k1, e1⟩ := p
    by_cases h : k1 = k
    · simp only [storeRemove, h, if_true, List.length_cons]
      have := storeRemove_length_le rest k
      omega
    · have hmem : k ∈ rest.map Prod.fst := by
        simp only [List.map_cons, List.mem_cons] at hk
        rcases hk with hk | hk
        · exact absurd hk.symm h
        · exact hk
      simp only [storeRemove, h, if_false, List.length_cons]
      exact Nat.succ_lt_succ (ih hmem)

theorem storeInsert_length_le {K V : Type} [DecidableEq K] :
    ∀ (s : List (K × CacheEntry V)) (k : K) (e : CacheEntry V),
      (storeInsert s k e).length ≤ s.length + 1 := by
  intro s k e
  induction s with
  | nil => simp [storeInsert]
  | cons p rest ih =>
    obtain ⟨k1, e1⟩ := p
    by_cases h : k1 = k
    · simp [storeInsert, h]
    · simp only [storeInsert, h, if_false, List.length_cons]
      omega

theorem storeInsert_length_of_present {K V : Type} [DecidableEq K] :
    ∀ (s : List (K × CacheEntry V)) (k : K) (e : CacheEntry V),
      (storeGet s k).isSome → (storeInsert s k e).length = s.length := by
  intro s k e hp
  induction s with
  | nil => simp [storeGet] at hp
  | cons p rest ih =>
    obtain ⟨k1, e1⟩ := p
    by_cases h : k1 = k
    · simp [storeInsert, h]
    · simp only [storeGet, h, if_false] at hp
      simp only [storeInsert, h, if_false, List.length_cons]
      exact congrArg Nat.succ (ih hp)

/-- Claim C6: a get whose stored entry expires before the observation
instant is a miss and removes the entry, and any get that returns a value
returns the stored entry with the observation instant at most expires_at. -/
theorem C6_cache_get_expiry {K V : Type} [DecidableEq K] (c : Cache K V) (k : K)
    (now : Nat) :
    (∀ e, storeGet c.store k = some e → e.expires_at < now →
      (c.get k now).1 = none ∧ storeGet ((c.get k now).2).store k = none) ∧
    (∀ v, (c.get k now).1 = some v →
      ∃ e, storeGet c.store k = some e ∧ now ≤ e.expires_at ∧ v = e.value) := by
  constructor
  · intro e he hexp
    have hb : e.is_expired now = true := by
      unfold CacheEntry.is_expired
      simpa using hexp
    unfold Cache.get
    rw [he]
    simp [hb, storeGet_storeRemove_self]
  · intro v hv
    unfold Cache.get at hv
    cases hstore : storeGet c.store k with
    | none => rw [hstore] at hv; simp at hv
    | some e =>
      rw [hstore] at hv
      by_cases hb : e.is_expired now = true
      · simp [hb] at hv
      · simp [hb] at hv
        have hle : now ≤ e.expires_at := by
          unfold CacheEntry.is_expired at hb
          simpa using hb
        exact ⟨e, rfl, hle, hv.symm⟩

/-- Witness for C6 at a concrete input: a single entry under key 1 expiring
at 3 ms, observed at 4 ms; the get misses and the entry is gone. -/
theorem C6_cache_get_expiry_witness :
    ((⟨[(1, ⟨5, 3, 0⟩)], 60, none⟩ : Cache Nat Nat).get 1 4).1 = none ∧
    storeGet (((⟨[(1, ⟨5, 3, 0⟩)], 60, none⟩ : Cache Nat Nat).get 1 4).2).store 1 = none :=
  (C6_cache_get_expiry (⟨[(1, ⟨5, 3, 0⟩)], 60, none⟩ : Cache Nat Nat) 1 4).1
    ⟨5, 3, 0⟩ (by decide) (by decide)

theorem Cache.apply_max_size {K V : Type} [DecidableEq K]
    (pick : List (K × CacheEntry V) → Option K) (c : Cache K V) (op : CacheOp K V) :
    (c.apply pick op).max_size = c.max_size := by
  cases op with
  | put k v now => rfl
  | putWithTtl k v ttl now => rfl
  | get k now =>
    show ((c.get k now).2).max_size = c.max_size
    unfold Cache.get
    cases storeGet c.store k with
    | none => rfl
    | some e => by_cases hb : e.is_expired now = true <;> simp [hb]
  | invalidate k => rfl
  | clear => rfl

theorem Cache.put_with_ttl_length_le {K V : Type} [DecidableEq K]
    (pick : List (K × CacheEntry V) → Option K)
    (hpick : ∀ s : List (K × CacheEntry V), s ≠ [] →
      ∃ k0, pick s = some k0 ∧ k0 ∈ s.map Prod.fst)
    (N : Nat) (hN : 1 ≤ N) (c : Cache K V) (hms : c.max_size = some N)
    (hlen : c.store.length ≤ N) (k : K) (v : V) (ttl now : Nat) :
    (c.put_with_ttl pick k v ttl now).store.length ≤ N := by
  unfold Cache.put_with_ttl
  rw [hms]
  dsimp only
  by_cases hcond : N ≤ c.store.length ∧ (storeGet c.store k).isNone = true
  · have hne : c.store ≠ [] := by
      intro h
      rw [h] at hcond
      simp at hcond
      omega
    obtain ⟨k0, hk0, hk0mem⟩ := hpick c.store hne
    rw [if_pos hcond, hk0]
    have h1 : (storeRemove c.store k0).length < c.store.length :=
      storeRemove_length_lt c.store k0 hk0mem
    have h2 := storeInsert_length_le (storeRemove c.store k0) k (CacheEntry.new v ttl now)
    dsimp only
    omega
  · rw [if_neg hcond]
    by_cases hp : (storeGet c.store k).isSome
    · rw [storeInsert_length_of_present c.store k _ hp]
      exact hlen
    · have hnone : (storeGet c.store k).isNone = true := by
        cases hsg : storeGet c.store k with
        | none => rfl
        | some e => rw [hsg] at hp; simp at hp
      have hlt : ¬ N ≤ c.store.length := fun hge => hcond ⟨hge, hnone⟩
      have := storeInsert_length_le c.store k (CacheEntry.new v ttl now)
      omega

theorem Cache.apply_length_le {K V : Type} [DecidableEq K]
    (pick : List (K × CacheEntry V) → Option K)
    (hpick : ∀ s : List (K × CacheEntry V), s ≠ [] →
      ∃ k0, pick s = some k0 ∧ k0 ∈ s.map Prod.fst)
    (N : Nat) (hN : 1 ≤ N) (c : Cache K V) (hms : c.max_size = some N)
    (hlen : c.store.length ≤ N) (op : CacheOp K V) :
    (c.apply pick op).store.length ≤ N := by
  cases op with
  | put k v now =>
    exact Cache.put_with_ttl_length_le pick hpick N hN c hms hlen k v c.default_ttl now
  | putWithTtl k v ttl now =>
    exact Cache.put_with_ttl_length_le pick hpick N hN c hms hlen k v ttl now
  | get k now =>
    show ((c.get k now).2).store.length ≤ N
    unfold Cache.get
    cases storeGet c.store k with
    | none => exact hlen
    | some e =>
      by_cases hb : e.is_expired now = true
      · simp only [hb, if_true]
        have := storeRemove_length_le c.store k
        omega
      · simp only [hb, if_false]
        exact hlen
  | invalidate k =>
    show (storeRemove c.store k).length ≤ N
    have := storeRemove_length_le c.store k
    omega
  | clear =>
    show ([] : List (K × CacheEntry V)).length ≤ N
    simp

theorem Cache.run_length_le {K V : Type} [DecidableEq K]
    (pick : List (K × CacheEntry V) → Option K)
    (hpick : ∀ s : List (K × CacheEntry V), s ≠ [] →
      ∃ k0, pick s = some k0 ∧ k0 ∈ s.map Prod.fst)
    (N : Nat) (hN : 1 ≤ N) :
    ∀ (ops : List (CacheOp K V)) (c : Cache K V), c.max_size = some N →
      c.store.length ≤ N → (c.run pick ops).store.length ≤ N := by
  intro ops
  induction ops with
  | nil => intro c _ hlen; exact hlen
  | cons op rest ih =>
    intro c hms hlen
    exact ih (c.apply pick op)
      (by rw [Cache.apply_max_size, hms])
      (Cache.apply_length_le pick hpick N hN c hms hlen op)

/-- Claim C7 (amended): for a fresh cache with positive max_size N, and any
HashMap key iteration behaviour, after any sequence of put, put_with_ttl,
get, invalidate and clear operations the store never holds more than N
entries. -/
theorem C7_cache_size_bound {K V : Type} [DecidableEq K]
    (pick : List (K × CacheEntry V) → Option K)
    (hpick : ∀ s : List (K × CacheEntry V), s ≠ [] →
      ∃ k0, pick s = some k0 ∧ k0 ∈ s.map Prod.fst)
    (default_ttl N : Nat) (hN : 1 ≤ N) (ops : List (CacheOp K V)) :
    ((Cache.with_max_size K V default_ttl N).run pick ops).store.length ≤ N :=
  Cache.run_length_le pick hpick N hN ops (Cache.with_max_size K V default_ttl N)
    rfl (by simp [Cache.with_max_size])

/-- Witness for C7 at a concrete input: max_size 2 with three puts of
distinct keys; the store stays within two entries. -/
theorem C7_cache_size_bound_witness :
    ((Cache.with_max_size Nat Nat 60 2).run (fun s => (s.map Prod.fst).head?)
      [.put 1 1 0, .put 2 2 0, .put 3 3 0]).store.length ≤ 2 :=
  C7_cache_size_bound (fun s => (s.map Prod.fst).head?)
    (fun s hs => by
      cases s with
      | nil => exact absurd rfl hs
      | cons p rest => exact ⟨p.1, rfl, by simp⟩)
    60 2 (by decide) [.put 1 1 0, .put 2 2 0, .put 3 3 0]

/-- Counterexample to C7 as stated: with max_size zero a single put leaves
one entry in the store, exceeding the bound — the eviction branch finds no
key to evict in the empty map and the insert proceeds regardless. -/
theorem C7_counterexample_max_size_zero :
    ((Cache.with_max_size Nat Nat 60 0).run (fun s => (s.map Prod.fst).head?)
      [.put 1 1 0]).store.length = 1 := by
  decide

/-- One iteration order the Rust HashMap is allowed to produce: whenever
key 2 is in the map, the keys iterator yields it first. The pick is legal:
it always returns a key of the map when the map is nonempty. -/
def hashOrderPick (s : List (Nat × CacheEntry Nat)) : Option Nat :=
  if (storeGet s 2).isSome then some 2 else (s.map Prod.fst).head?

/-- Claim C8 is a code bug: eviction picks whatever key the HashMap yields
first, not the oldest by insertion. With max_size 2, after puts of keys 1
then 2, inserting key 3 under the iteration order of hashOrderPick evicts
key 2 and keeps key 1 — the first-inserted key survives, contradicting the
documented FIFO eviction. -/
theorem C8_eviction_not_fifo :
    (((Cache.with_max_size Nat Nat 60 2).run hashOrderPick
        [.put 1 10 0, .put 2 20 1]).store.map Prod.fst = [1, 2]) ∧
    (((Cache.with_max_size Nat Nat 60 2).run hashOrderPick
        [.put 1 10 0, .put 2 20 1, .put 3 30 2]).store.map Prod.fst = [1, 3]) := by
  decide

/-! ## NetBox data model, from src/netbox/models.rs

f64 fields carry no arithmetic anywhere in the verified code paths and are
modelled over the rationals; serde_json Value custom fields are modelled as
JSON objects with leaf values, which is the only shape the enrichment code
handles without aborting. -/

/-- NetBox Site Status. -/
inductive SiteStatus where
  | Active
  | Planned
  | Retired
  | Staging
deriving DecidableEq, Repr

/-- NetBox Device Face. -/
inductive DeviceFace where
  | Front
  | Rear
deriving DecidableEq, Repr

/-- NetBox Device Status. -/
inductive DeviceStatus where
  | Offline
  | Active
  | Planned
  | Staged
  | Failed
  | Inventory
  | Decommissioning
deriving DecidableEq, Repr

/-- A serde_json leaf value as stored in custom_fields. -/
inductive JsonV where
  | str (s : String)
  | num (n : Int)
  | boolean (b : Bool)
  | null
deriving DecidableEq, Repr

/-- NetBox Site model. -/
structure NetBoxSite where
  id : Option Int
  name : String
  slug : Option String
  description : Option String
  status : Option SiteStatus
  region : Option Int
  tenant : Option Int
  facility : Option String
  physical_address : Option String
  shipping_address : Option String
  latitude : Option ℚ
  longitude : Option ℚ
  contact_name : Option String
  contact_phone : Option String
  contact_email : Option String
  comments : Option String
  tags : Option (List String)
  custom_fields : Option (String → Option JsonV)
  created : Option String
  last_updated : Option String

/-- NetBox Device model. -/
structure NetBoxDevice where
  id : Option Int
  name : Option String
  device_type : Option Int
  device_role : Option Int
  tenant : Option Int
  platform : Option Int
  serial : Option String
  asset_tag : Option String
  site : Option Int
  location : Option Int
  rack : Option Int
  position : Option ℚ
  face : Option DeviceFace
  status : Option DeviceStatus
  primary_ip4 : Option Int
  primary_ip6 : Option Int
  cluster : Option Int
  virtual_chassis : Option Int
  vc_position : Option Int
  vc_priority : Option Int
  comments : Option String
  tags : Option (List String)
  custom_fields : Option (String → Option JsonV)
  created : Option String
  last_updated : Option String

/-- NetBox API response wrapper. -/
structure NetBoxResponse (T : Type) where
  count : Option Int
  next : Option String
  previous : Option String
  results : Option (List T)
deriving DecidableEq, Repr

/-- Request payload for creating a site. -/
structure CreateSiteRequest where
  name : String
  slug : Option String
  description : Option String
  status : Option SiteStatus
  region : Option Int
  tenant : Option Int
  facility : Option String
  physical_address : Option String
  shipping_address : Option String
  latitude : Option ℚ
  longitude : Option ℚ
  contact_name : Option String
  contact_phone : Option String
  contact_email : Option String
  comments : Option String
  tags : Option (List String)
deriving DecidableEq, Repr

/-- Request payload for creating a device. -/
structure CreateDeviceRequest where
  name : Option String
  device_type : Int
  device_role : Int
  tenant : Option Int
  platform : Option Int
  serial : Option String
  asset_tag : Option String
  site : Int
  location : Option Int
  rack : Option Int
  position : Option ℚ
  face : Option DeviceFace
  status : Option DeviceStatus
  cluster : Option Int
  comments : Option String
  tags : Option (List String)
deriving DecidableEq, Repr

/-- NetBoxError from src/netbox/error.rs; source errors carried by the
network and serialization variants are kept as their display strings. -/
inductive NetBoxError where
  | apiError (msg : String)
  | authenticationError (msg : String)
  | notFound (msg : String)
  | validationError (msg : String)
  | networkError (msg : String)
  | serializationError (msg : String)
  | invalidUrl (msg : String)
  | unexpectedResponse (msg : String)
deriving DecidableEq, Repr

/-- AppError from src/error.rs; through the tenant-aware client the
Internal variant always wraps a transport NetBoxError, which the model
keeps as the payload. -/
inductive AppError where
  | unauthorized
  | notFound (msg : String)
  | internal (source : NetBoxError)
deriving DecidableEq, Repr

/-! ## Tenant access layer, from src/security/tenant.rs and
src/netbox/tenant_client.rs

The registered mappings of TenantMappingService are an association list
from app-tenant id to NetBox tenant id; each async transport call becomes
an explicit parameter carrying the outcome the transport would produce. -/

/-- TenantMappingService::get_netbox_tenant_id over the registered
mappings. -/
def mappingGet : List (String × Int) → String → Option Int
  | [], _ => none
  | (t, n) :: rest, tenant_id => if t = tenant_id then some n else mappingGet rest tenant_id

/-- TenantAccessControl::verify_site_access. -/
def verify_site_access (m : List (String × Int)) (tenant_id : String)
    (site : NetBoxSite) : Except AppError Unit :=
  match mappingGet m tenant_id with
  | none => .error .unauthorized
  | some netbox_tenant_id =>
    match site.tenant with
    | some site_tenant =>
      if site_tenant = netbox_tenant_id then .ok () else .error .unauthorized
    | none => .error .unauthorized

/-- TenantAccessControl::verify_device_access. -/
def verify_device_access (m : List (String × Int)) (tenant_id : String)
    (device : NetBoxDevice) : Except AppError Unit :=
  match mappingGet m tenant_id with
  | none => .error .unauthorized
  | some netbox_tenant_id =>
    match device.tenant with
    | some device_tenant =>
      if device_tenant = netbox_tenant_id then .ok () else .error .unauthorized
    | none => .error .unauthorized

/-- TenantAccessControl::filter_sites_by_tenant. -/
def filter_sites_by_tenant (m : List (String × Int)) (tenant_id : String)
    (sites : List NetBoxSite) : Except AppError (List NetBoxSite) :=
  match mappingGet m tenant_id with
  | none => .error .unauthorized
  | some netbox_tenant_id =>
    .ok (sites.filter fun site =>
      (site.tenant.map (fun t => decide (t = netbox_tenant_id))).getD false)

/-- TenantAccessControl::filter_devices_by_tenant. -/
def filter_devices_by_tenant (m : List (String × Int)) (tenant_id : String)
    (devices : List NetBoxDevice) : Except AppError (List NetBoxDevice) :=
  match mappingGet m tenant_id with
  | none => .error .unauthorized
  | some netbox_tenant_id =>
    .ok (devices.filter fun device =>
      (device.tenant.map (fun t => decide (t = netbox_tenant_id))).getD false)

namespace TenantClient

/-- TenantAwareNetBoxClient::get_site; upstream is the outcome of the
transport call, which runs before the visibility check. -/
def get_site (m : List (String × Int)) (tenant_id : String)
    (upstream : Except NetBoxError NetBoxSite) : Except AppError NetBoxSite :=
  match upstream with
  | .error e => .error (.internal e)
  | .ok site =>
    match verify_site_access m tenant_id site with
    | .error a => .error a
    | .ok _ => .ok site

/-- TenantAwareNetBoxClient::list_sites; the transport is called with the
mapped tenant as the filter argument. -/
def list_sites (m : List (String × Int)) (tenant_id : String)
    (upstream : Int → Except NetBoxError (NetBoxResponse NetBoxSite)) :
    Except AppError (List NetBoxSite) :=
  match mappingGet m tenant_id with
  | none => .error .unauthorized
  | some netbox_tenant_id =>
    match upstream netbox_tenant_id with
    | .error e => .error (.internal e)
    | .ok response =>
      let sites := response.results.getD []
      filter_sites_by_tenant m tenant_id sites

/-- TenantAwareNetBoxClient::create_site: the mapped tenant is forced into
the request before submission, and the created site is verified. -/
def create_site (m : List (String × Int)) (tenant_id : String)
    (request : CreateSiteRequest)
    (upstream : CreateSiteRequest → Except NetBoxError NetBoxSite) :
    Except AppError NetBoxSite :=
  match mappingGet m tenant_id with
  | none => .error .unauthorized
  | some netbox_tenant_id =>
    match upstream { request with tenant := some netbox_tenant_id } with
    | .error e => .error (.internal e)
    | .ok site =>
      match verify_site_access m tenant_id site with
      | .error a => .error a
      | .ok _ => .ok site

/-- TenantAwareNetBoxClient::update_site: the checked get runs first, then
the transport update, then the visibility check on the updated site. -/
def update_site (m : List (String × Int)) (tenant_id : String)
    (upstreamGet : Except NetBoxError NetBoxSite)
    (upstreamUpdate : Except NetBoxError NetBoxSite) : Except AppError NetBoxSite :=
  match get_site m tenant_id upstreamGet with
  | .error a => .error a
  | .ok _ =>
    match upstreamUpdate with
    | .error e => .error (.internal e)
    | .ok site =>
      match verify_site_access m tenant_id site with
      | .error a => .error a
      | .ok _ => .ok site

/-- TenantAwareNetBoxClient::delete_site. -/
def delete_site (m : List (String × Int)) (tenant_id : String)
    (upstreamGet : Except NetBoxError NetBoxSite)
    (upstreamDelete : Except NetBoxError Unit) : Except AppError Unit :=
  match get_site m tenant_id upstreamGet with
  | .error a => .error a
  | .ok _ =>
    match upstreamDelete with
    | .error e => .error (.internal e)
    | .ok _ => .ok ()

/-- TenantAwareNetBoxClient::get_device. -/
def get_device (m : List (String × Int)) (tenant_id : String)
    (upstream : Except NetBoxError NetBoxDevice) : Except AppError NetBoxDevice :=
  match upstream with
  | .error e => .error (.internal e)
  | .ok device =>
    match verify_device_access m tenant_id device with
    | .error a => .error a
    | .ok _ => .ok device

/-- TenantAwareNetBoxClient::list_devices. -/
def list_devices (m : List (String × Int)) (tenant_id : String)
    (upstream : Int → Except NetBoxError (NetBoxResponse NetBoxDevice)) :
    Except AppError (List NetBoxDevice) :=
  match mappingGet m tenant_id with
  | none => .error .unauthorized
  | some netbox_tenant_id =>
    match upstream netbox_tenant_id with
    | .error e => .error (.internal e)
    | .ok response =>
      let devices := response.results.getD []
      filter_devices_by_tenant m tenant_id devices

/-- TenantAwareNetBoxClient::create_device. -/
def create_device (m : List (String × Int)) (tenant_id : String)
    (request : CreateDeviceRequest)
    (upstream : CreateDeviceRequest → Except NetBoxError NetBoxDevice) :
    Except AppError NetBoxDevice :=
  match mappingGet m tenant_id with
  | none => .error .unauthorized
  | some netbox_tenant_id =>
    match upstream { request with tenant := some netbox_tenant_id } with
    | .error e => .error (.internal e)
    | .ok device =>
      match verify_device_access m tenant_id device with
      | .error a => .error a
      | .ok _ => .ok device

/-- TenantAwareNetBoxClient::update_device. -/
def update_device (m : List (String × Int)) (tenant_id : String)
    (upstreamGet : Except NetBoxError NetBoxDevice)
    (upstreamUpdate : Except NetBoxError NetBoxDevice) : Except AppError NetBoxDevice :=
  match get_device m tenant_id upstreamGet with
  | .error a => .error a
  | .ok _ =>
    match upstreamUpdate with
    | .error e => .error (.internal e)
    | .ok device =>
      match verify_device_access m tenant_id device with
      | .error a => .error a
      | .ok _ => .ok device

/-- TenantAwareNetBoxClient::delete_device. -/
def delete_device (m : List (String × Int)) (tenant_id : String)
    (upstreamGet : Except NetBoxError NetBoxDevice)
    (upstreamDelete : Except NetBoxError Unit) : Except AppError Unit :=
  match get_device m tenant_id upstreamGet with
  | .error a => .error a
  | .ok _ =>
    match upstreamDelete with
    | .error e => .error (.internal e)
    | .ok _ => .ok ()

end TenantClient

theorem verify_site_access_ok_iff (m : List (String × Int)) (t : String) (s : NetBoxSite) :
    verify_site_access m t s = .ok () ↔
      ∃ ntid, mappingGet m t = some ntid ∧ s.tenant = some ntid := by
  unfold verify_site_access
  cases hm : mappingGet m t with
  | none => simp
  | some ntid =>
    cases hs : s.tenant with
    | none => simp
    | some st =>
      by_cases h : st = ntid
      · subst h; simp
      · simp [h]

theorem verify_device_access_ok_iff (m : List (String × Int)) (t : String) (d : NetBoxDevice) :
    verify_device_access m t d = .ok () ↔
      ∃ ntid, mappingGet m t = some ntid ∧ d.tenant = some ntid := by
  unfold verify_device_access
  cases hm : mappingGet m t with
  | none => simp
  | some ntid =>
    cases hs : d.tenant with
    | none => simp
    | some dt =>
      by_cases h : dt = ntid
      · subst h; simp
      · simp [h]

theorem get_site_ok_iff (m : List (String × Int)) (t : String)
    (up : Except NetBoxError NetBoxSite) (s : NetBoxSite) :
    TenantClient.get_site m t up = .ok s ↔
      up = .ok s ∧ verify_site_access m t s = .ok () := by
  unfold TenantClient.get_site
  cases up with
  | error e => simp
  | ok site =>
    cases hv : verify_site_access m t site with
    | error a =>
      simp [hv]
      intro h hc
      subst h
      simp [hv] at hc
    | ok u =>
      cases u
      constructor
      · intro h
        simp [hv] at h
        subst h
        exact ⟨rfl, hv⟩
      · intro ⟨h1, _⟩
        simp at h1
        subst h1
        simp [hv]

theorem get_device_ok_iff (m : List (String × Int)) (t : String)
    (up : Except NetBoxError NetBoxDevice) (d : NetBoxDevice) :
    TenantClient.get_device m t up = .ok d ↔
      up = .ok d ∧ verify_device_access m t d = .ok () := by
  unfold TenantClient.get_device
  cases up with
  | error e => simp
  | ok device =>
    cases hv : verify_device_access m t device with
    | error a =>
      simp [hv]
      intro h hc
      subst h
      simp [hv] at hc
    | ok u =>
      cases u
      constructor
      · intro h
        simp [hv] at h
        subst h
        exact ⟨rfl, hv⟩
      · intro ⟨h1, _⟩
        simp at h1
        subst h1
        simp [hv]

theorem filter_sites_mem (m : List (String × Int)) (t : String)
    (sites out : List NetBoxSite) (s : NetBoxSite)
    (hf : filter_sites_by_tenant m t sites = .ok out) (hs : s ∈ out) :
    ∃ ntid, mappingGet m t = some ntid ∧ s.tenant = some ntid := by
  unfold filter_sites_by_tenant at hf
  cases hm : mappingGet m t with
  | none => rw [hm] at hf; exact absurd hf (by simp)
  | some ntid =>
    rw [hm] at hf
    simp only [Except.ok.injEq] at hf
    subst hf
    refine ⟨ntid, rfl, ?_⟩
    have hmem := List.mem_filter.mp hs
    cases hst : s.tenant with
    | none => rw [hst] at hmem; simp [Option.map, Option.getD] at hmem
    | some st =>
      rw [hst] at hmem
      simp only [Option.map, Option.getD, decide_eq_true_eq] at hmem
      rw [hmem.2]

theorem filter_devices_mem (m : List (String × Int)) (t : String)
    (devices out : List NetBoxDevice) (d : NetBoxDevice)
    (hf : filter_devices_by_tenant m t devices = .ok out) (hd : d ∈ out) :
    ∃ ntid, mappingGet m t = some ntid ∧ d.tenant = some ntid := by
  unfold filter_devices_by_tenant at hf
  cases hm : mappingGet m t with
  | none => rw [hm] at hf; exact absurd hf (by simp)
  | some ntid =>
    rw [hm] at hf
    simp only [Except.ok.injEq] at hf
    subst hf
    refine ⟨ntid, rfl, ?_⟩
    have hmem := List.mem_filter.mp hd
    cases hdt : d.tenant with
    | none => rw [hdt] at hmem; simp [Option.map, Option.getD] at hmem
    | some dt =>
      rw [hdt] at hmem
      simp only [Option.map, Option.getD, decide_eq_true_eq] at hmem
      rw [hmem.2]

/-- Claim C1 (amended): every site or device returned successfully through
the tenant-aware client carries the tenant mapped for the caller; a get on
a fetched resource whose tenant differs from the mapping or is null is
Unauthorized; and with no registered mapping every operation is
Unauthorized, except that a get whose transport fetch itself fails
surfaces the transport failure as Internal instead. -/
theorem C1_tenant_access_isolation (m : List (String × Int)) (t : String) :
    (∀ (up : Except NetBoxError NetBoxSite) (s : NetBoxSite),
      TenantClient.get_site m t up = .ok s →
      ∃ ntid, mappingGet m t = some ntid ∧ s.tenant = some ntid) ∧
    (∀ (up : Int → Except NetBoxError (NetBoxResponse NetBoxSite))
        (l : List NetBoxSite) (s : NetBoxSite),
      TenantClient.list_sites m t up = .ok l → s ∈ l →
      ∃ ntid, mappingGet m t = some ntid ∧ s.tenant = some ntid) ∧
    (∀ (up : Except NetBoxError NetBoxDevice) (d : NetBoxDevice),
      TenantClient.get_device m t up = .ok d →
      ∃ ntid, mappingGet m t = some ntid ∧ d.tenant = some ntid) ∧
    (∀ (up : Int → Except NetBoxError (NetBoxResponse NetBoxDevice))
        (l : List NetBoxDevice) (d : NetBoxDevice),
      TenantClient.list_devices m t up = .ok l → d ∈ l →
      ∃ ntid, mappingGet m t = some ntid ∧ d.tenant = some ntid) ∧
    (∀ (s : NetBoxSite) (ntid : Int), mappingGet m t = some ntid →
      s.tenant ≠ some ntid →
      TenantClient.get_site m t (.ok s) = .error .unauthorized) ∧
    (∀ (d : NetBoxDevice) (ntid : Int), mappingGet m t = some ntid →
      d.tenant ≠ some ntid →
      TenantClient.get_device m t (.ok d) = .error .unauthorized) ∧
    (mappingGet m t = none →
      (∀ s : NetBoxSite, TenantClient.get_site m t (.ok s) = .error .unauthorized) ∧
      (∀ up, TenantClient.list_sites m t up = .error .unauthorized) ∧
      (∀ req up, TenantClient.create_site m t req up = .error .unauthorized) ∧
      (∀ d : NetBoxDevice, TenantClient.get_device m t (.ok d) = .error .unauthorized) ∧
      (∀ up, TenantClient.list_devices m t up = .error .unauthorized) ∧
      (∀ req up, TenantClient.create_device m t req up = .error .unauthorized)) := by
  refine ⟨?_, ?_, ?_, ?_, ?_, ?_, ?_⟩
  · intro up s h
    exact (verify_site_access_ok_iff m t s).mp ((get_site_ok_iff m t up s).mp h).2
  · intro up l s h hm
    unfold TenantClient.list_sites at h
    cases hmg : mappingGet m t with
    | none => rw [hmg] at h; simp at h
    | some ntid =>
      rw [hmg] at h
      dsimp only at h
      cases hup : up ntid with
      | error e => rw [hup] at h; simp at h
      | ok response =>
        rw [hup] at h
        dsimp only at h
        obtain ⟨n2, hn2, hst⟩ := filter_sites_mem m t (response.results.getD []) l s h hm
        rw [hmg] at hn2
        exact ⟨n2, hn2, hst⟩
  · intro up d h
    exact (verify_device_access_ok_iff m t d).mp ((get_device_ok_iff m t up d).mp h).2
  · intro up l d h hm
    unfold TenantClient.list_devices at h
    cases hmg : mappingGet m t with
    | none => rw [hmg] at h; simp at h
    | some ntid =>
      rw [hmg] at h
      dsimp only at h
      cases hup : up ntid with
      | error e => rw [hup] at h; simp at h
      | ok response =>
        rw [hup] at h
        dsimp only at h
        obtain ⟨n2, hn2, hdt⟩ := filter_devices_mem m t (response.results.getD []) l d h hm
        rw [hmg] at hn2
        exact ⟨n2, hn2, hdt⟩
  · intro s ntid hmg hne
    have hv : verify_site_access m t s = .error .unauthorized := by
      unfold verify_site_access
      rw [hmg]
      cases hst : s.tenant with
      | none => rfl
      | some st =>
        have : ¬ st = ntid := fun h => hne (by rw [hst, h])
        simp [this]
    unfold TenantClient.get_site
    simp [hv]
  · intro d ntid hmg hne
    have hv : verify_device_access m t d = .error .unauthorized := by
      unfold verify_device_access
      rw [hmg]
      cases hdt : d.tenant with
      | none => rfl
      | some dt =>
        have : ¬ dt = ntid := fun h => hne (by rw [hdt, h])
        simp [this]
    unfold TenantClient.get_device
    simp [hv]
  · intro hmg
    have hvs : ∀ s : NetBoxSite, verify_site_access m t s = .error .unauthorized := by
      intro s
      unfold verify_site_access
      rw [hmg]
    have hvd : ∀ d : NetBoxDevice, verify_device_access m t d = .error .unauthorized := by
      intro d
      unfold verify_device_access
      rw [hmg]
    refine ⟨?_, ?_, ?_, ?_, ?_, ?_⟩
    · intro s
      unfold TenantClient.get_site
      simp [hvs s]
    · intro up
      unfold TenantClient.list_sites
      rw [hmg]
    · intro req up
      unfold TenantClient.create_site
      rw [hmg]
    · intro d
      unfold TenantClient.get_device
      simp [hvd d]
    · intro up
      unfold TenantClient.list_devices
      rw [hmg]
    · intro req up
      unfold TenantClient.create_device
      rw [hmg]

/-- Witness for C1 at a concrete input: tenant t1 maps to 10; a fetched
site of tenant 20 is rejected as Unauthorized, and a list for an unknown
tenant is Unauthorized. -/
theorem C1_tenant_access_isolation_witness :
    TenantClient.get_site [("t1", 10)] "t1"
        (.ok { (⟨none, "s", none, none, none, none, some 20, none, none, none, none,
          none, none, none, none, none, none, none, none, none⟩ : NetBoxSite) with
          tenant := some 20 }) = .error .unauthorized ∧
    TenantClient.list_sites [("t1", 10)] "t2"
        (fun _ => .error (.apiError "never called")) = .error .unauthorized := by
  constructor
  · exact (C1_tenant_access_isolation [("t1", 10)] "t1").2.2.2.2.1
      _ 10 (by decide) (by decide)
  · exact ((C1_tenant_access_isolation [("t1", 10)] "t2").2.2.2.2.2.2
      (by decide)).2.1 (fun _ => .error (.apiError "never called"))

/-- Counterexample to C1 as stated: for an app-tenant with no registered
mapping, a get whose transport call fails does not return Unauthorized —
the transport error is wrapped as Internal before the mapping is ever
consulted. -/
theorem C1_counterexample_unknown_tenant_internal :
    TenantClient.get_site [] "t1" (.error (.notFound "missing")) =
      .error (.internal (.notFound "missing")) ∧
    TenantClient.get_site [] "t1" (.error (.notFound "missing")) ≠
      .error .unauthorized := by
  exact ⟨rfl, by simp [TenantClient.get_site]⟩

/-- Claim C10: every transport error inside a tenant-aware operation is
surfaced as the Internal kind — an upstream NotFound, Auth or Validation
error never reaches the caller under its own kind — and Unauthorized only
arises from a missing mapping or a tenant mismatch on the fetched
resource. -/
theorem C10_transport_errors_internal (m : List (String × Int)) (t : String) :
    (∀ e : NetBoxError,
      TenantClient.get_site m t (.error e) = .error (.internal e) ∧
      TenantClient.get_device m t (.error e) = .error (.internal e) ∧
      (∀ upUpd, TenantClient.update_site m t (.error e) upUpd = .error (.internal e)) ∧
      (∀ upUpd, TenantClient.update_device m t (.error e) upUpd = .error (.internal e)) ∧
      (∀ upDel, TenantClient.delete_site m t (.error e) upDel = .error (.internal e)) ∧
      (∀ upDel, TenantClient.delete_device m t (.error e) upDel = .error (.internal e))) ∧
    (∀ (ntid : Int) (e : NetBoxError), mappingGet m t = some ntid →
      (∀ up : Int → Except NetBoxError (NetBoxResponse NetBoxSite),
        up ntid = .error e → TenantClient.list_sites m t up = .error (.internal e)) ∧
      (∀ up : Int → Except NetBoxError (NetBoxResponse NetBoxDevice),
        up ntid = .error e → TenantClient.list_devices m t up = .error (.internal e)) ∧
      (∀ (req : CreateSiteRequest) (up : CreateSiteRequest → Except NetBoxError NetBoxSite),
        up { req with tenant := some ntid } = .error e →
        TenantClient.create_site m t req up = .error (.internal e)) ∧
      (∀ (req : CreateDeviceRequest)
          (up : CreateDeviceRequest → Except NetBoxError NetBoxDevice),
        up { req with tenant := some ntid } = .error e →
        TenantClient.create_device m t req up = .error (.internal e))) ∧
    (∀ (s : NetBoxSite) (e : NetBoxError), TenantClient.get_site m t (.ok s) = .ok s →
      TenantClient.update_site m t (.ok s) (.error e) = .error (.internal e) ∧
      TenantClient.delete_site m t (.ok s) (.error e) = .error (.internal e)) ∧
    (∀ up : Except NetBoxError NetBoxSite,
      TenantClient.get_site m t up = .error .unauthorized →
      mappingGet m t = none ∨
        ∃ s ntid, up = .ok s ∧ mappingGet m t = some ntid ∧ s.tenant ≠ some ntid) ∧
    (∀ (up : Except NetBoxError NetBoxSite) (msg : String),
      TenantClient.get_site m t up ≠ .error (.notFound msg)) ∧
    (∀ (up : Except NetBoxError NetBoxDevice) (msg : String),
      TenantClient.get_device m t up ≠ .error (.notFound msg)) := by
  refine ⟨?_, ?_, ?_, ?_, ?_, ?_⟩
  · intro e
    exact ⟨rfl, rfl, fun upUpd => rfl, fun upUpd => rfl, fun upDel => rfl, fun upDel => rfl⟩
  · intro ntid e hmg
    refine ⟨?_, ?_, ?_, ?_⟩
    · intro up hup
      unfold TenantClient.list_sites
      rw [hmg]
      dsimp only
      rw [hup]
    · intro up hup
      unfold TenantClient.list_devices
      rw [hmg]
      dsimp only
      rw [hup]
    · intro req up hup
      unfold TenantClient.create_site
      rw [hmg]
      dsimp only
      rw [hup]
    · intro req up hup
      unfold TenantClient.create_device
      rw [hmg]
      dsimp only
      rw [hup]
  · intro s e hget
    constructor
    · unfold TenantClient.update_site
      rw [hget]
    · unfold TenantClient.delete_site
      rw [hget]
  · intro up h
    unfold TenantClient.get_site verify_site_access at h
    cases up with
    | error e => simp at h
    | ok site =>
      cases hmg : mappingGet m t with
      | none => left; rfl
      | some ntid =>
        right
        cases hst : site.tenant with
        | none => exact ⟨site, ntid, rfl, rfl, by rw [hst]; simp⟩
        | some st =>
          by_cases heq : st = ntid
          · simp [hmg, hst, heq] at h
          · exact ⟨site, ntid, rfl, rfl, by rw [hst]; simp [heq]⟩
  · intro up msg h
    unfold TenantClient.get_site verify_site_access at h
    cases up with
    | error e => simp at h
    | ok site =>
      cases hmg : mappingGet m t with
      | none => simp [hmg] at h
      | some ntid =>
        cases hst : site.tenant with
        | none => simp [hmg, hst] at h
        | some st => by_cases heq : st = ntid <;> simp [hmg, hst, heq] at h
  · intro up msg h
    unfold TenantClient.get_device verify_device_access at h
    cases up with
    | error e => simp at h
    | ok device =>
      cases hmg : mappingGet m t with
      | none => simp [hmg] at h
      | some ntid =>
        cases hdt : device.tenant with
        | none => simp [hmg, hdt] at h
        | some dt => by_cases heq : dt = ntid <;> simp [hmg, hdt, heq] at h

/-- Witness for C10 at a concrete input: an upstream authentication error
on list_sites with a registered mapping comes back as Internal wrapping
that very error, not as any authentication kind of its own. -/
theorem C10_transport_errors_internal_witness :
    TenantClient.list_sites [("t1", 10)] "t1"
        (fun _ => .error (.authenticationError "bad token")) =
      .error (.internal (.authenticationError "bad token")) :=
  ((C10_transport_errors_internal [("t1", 10)] "t1").2.1 10
      (.authenticationError "bad token") (by decide)).1
    (fun _ => .error (.authenticationError "bad token")) rfl

/-! ## Enrichment, from src/business/enrichment.rs

The Rust tag pipeline ends in a stable sort followed by removal of adjacent
duplicates; on strings, any sorted permutation of the same multiset is the
same list, so insertion sort models Vec::sort exactly. -/

/-- Vec::dedup: remove adjacent duplicates, keeping the first of each run. -/
def dedupAdjacent : List String → List String
  | [] => []
  | [a] => [a]
  | a :: b :: rest =>
    if a = b then dedupAdjacent (b :: rest) else a :: dedupAdjacent (b :: rest)

/-- tags.sort followed by tags.dedup. -/
def sortDedup (l : List String) : List String :=
  dedupAdjacent (l.insertionSort (· ≤ ·))

theorem mem_dedupAdjacent : ∀ (l : List String) (x : String),
    x ∈ dedupAdjacent l ↔ x ∈ l := by
  intro l
  induction l with
  | nil => intro x; rfl
  | cons a l ih =>
    intro x
    cases l with
    | nil => rfl
    | cons b rest =>
      by_cases h : a = b
      · subst h
        rw [dedupAdjacent, if_pos rfl]
        constructor
        · intro hx
          exact List.mem_cons_of_mem a ((ih x).mp hx)
        · intro hx
          rcases List.mem_cons.mp hx with hx | hx
          · exact (ih x).mpr (by rw [hx]; exact List.mem_cons_self a rest)
          · exact (ih x).mpr hx
      · rw [dedupAdjacent, if_neg h]
        constructor
        · intro hx
          rcases List.mem_cons.mp hx with hx | hx
          · rw [hx]; exact List.mem_cons_self a (b :: rest)
          · exact List.mem_cons_of_mem a ((ih x).mp hx)
        · intro hx
          rcases List.mem_cons.mp hx with hx | hx
          · rw [hx]; exact List.mem_cons_self a _
          · exact List.mem_cons_of_mem a ((ih x).mpr hx)

theorem dedupAdjacent_sorted_strict : ∀ l : List String,
    l.Sorted (· ≤ ·) → (dedupAdjacent l).Sorted (· < ·) := by
  intro l
  induction l with
  | nil => intro _; exact List.sorted_nil
  | cons a l ih =>
    intro hs
    cases l with
    | nil => exact List.sorted_singleton a
    | cons b rest =>
      have hrest : (b :: rest).Sorted (· ≤ ·) := (List.sorted_cons.mp hs).2
      have hall : ∀ x ∈ b :: rest, a ≤ x := (List.sorted_cons.mp hs).1
      by_cases h : a = b
      · rw [dedupAdjacent, if_pos h]
        exact ih hrest
      · rw [dedupAdjacent, if_neg h]
        refine List.sorted_cons.mpr ⟨?_, ih hrest⟩
        intro x hx
        have hx2 : x ∈ b :: rest := (mem_dedupAdjacent _ x).mp hx
        have hab : a < b := lt_of_le_of_ne (hall b (List.mem_cons_self b rest)) h
        rcases List.mem_cons.mp hx2 with hx2 | hx2
        · rw [hx2]; exact hab
        · exact lt_of_lt_of_le hab ((List.sorted_cons.mp hrest).1 x hx2)

theorem mem_sortDedup (l : List String) (x : String) : x ∈ sortDedup l ↔ x ∈ l := by
  unfold sortDedup
  rw [mem_dedupAdjacent]
  exact (List.perm_insertionSort (· ≤ ·) l).mem_iff

theorem sortDedup_sorted_strict (l : List String) : (sortDedup l).Sorted (· < ·) :=
  dedupAdjacent_sorted_strict _ (List.sorted_insertionSort (· ≤ ·) l)

theorem sortDedup_eq_of_mem_iff (l₁ l₂ : List String)
    (h : ∀ x, x ∈ l₁ ↔ x ∈ l₂) : sortDedup l₁ = sortDedup l₂ := by
  have hs₁ := sortDedup_sorted_strict l₁
  have hs₂ := sortDedup_sorted_strict l₂
  have hn₁ : (sortDedup l₁).Nodup := hs₁.nodup
  have hn₂ : (sortDedup l₂).Nodup := hs₂.nodup
  have hfin : (sortDedup l₁).toFinset = (sortDedup l₂).toFinset := by
    ext x
    simp only [List.mem_toFinset, mem_sortDedup]
    exact h x
  have hperm := List.perm_of_nodup_nodup_toFinset_eq hn₁ hn₂ hfin
  exact List.eq_of_perm_of_sorted hperm (hs₁.imp le_of_lt) (hs₂.imp le_of_lt)

theorem sortDedup_append_stable (t0 A : List String) :
    sortDedup (sortDedup (t0 ++ A) ++ A) = sortDedup (t0 ++ A) := by
  apply sortDedup_eq_of_mem_iff
  intro x
  constructor
  · intro hx
    rcases List.mem_append.mp hx with hx | hx
    · exact (mem_sortDedup _ x).mp hx
    · exact List.mem_append.mpr (Or.inr hx)
  · intro hx
    exact List.mem_append.mpr (Or.inl ((mem_sortDedup _ x).mpr hx))

/-- One custom_fields index assignment; the serde_json object is modelled
by its lookup function, matching BTreeMap equality pointwise. -/
def cfSet (cf : String → Option JsonV) (k : String) (v : JsonV) : String → Option JsonV :=
  fun k2 => if k2 = k then some v else cf k2

/-- The sequence of custom_fields assignments performed by a merge. -/
def applyWrites (cf : String → Option JsonV) (W : List (String × JsonV)) :
    String → Option JsonV :=
  W.foldl (fun acc kv => cfSet acc kv.1 kv.2) cf

/-- The value a key holds after a fold of assignments. -/
def lastWriteStep (k : String) : Option JsonV → String × JsonV → Option JsonV :=
  fun acc kv => if kv.1 = k then some kv.2 else acc

theorem applyWrites_apply : ∀ (W : List (String × JsonV))
    (cf : String → Option JsonV) (k : String),
    applyWrites cf W k = W.foldl (lastWriteStep k) (cf k) := by
  intro W
  induction W with
  | nil => intro cf k; rfl
  | cons w W' ih =>
    intro cf k
    show applyWrites (cfSet cf w.1 w.2) W' k = _
    rw [ih]
    simp only [List.foldl_cons]
    have : cfSet cf w.1 w.2 k = lastWriteStep k (cf k) w := by
      by_cases h : k = w.1
      · simp [cfSet, lastWriteStep, h]
      · simp [cfSet, lastWriteStep, h, fun hh : w.1 = k => h hh.symm]
        rw [if_neg (fun hh : w.1 = k => h hh.symm)]
    rw [this]

theorem foldl_lastWriteStep_const (k : String) :
    ∀ (W : List (String × JsonV)), (∃ kv ∈ W, kv.1 = k) →
      ∀ i j, W.foldl (lastWriteStep k) i = W.foldl (lastWriteStep k) j := by
  intro W
  induction W with
  | nil => intro h; simp at h
  | cons w W' ih =>
    intro hex i j
    simp only [List.foldl_cons]
    by_cases h : w.1 = k
    · simp [lastWriteStep, h]
    · obtain ⟨kv, hmem, hk⟩ := hex
      rcases List.mem_cons.mp hmem with heq | hmem2
      · exact absurd hk (by rw [heq]; exact h)
      · simp only [lastWriteStep, h, if_false]
        exact ih ⟨kv, hmem2, hk⟩ i j

theorem foldl_lastWriteStep_id (k : String) :
    ∀ (W : List (String × JsonV)), (∀ kv ∈ W, kv.1 ≠ k) →
      ∀ i, W.foldl (lastWriteStep k) i = i := by
  intro W
  induction W with
  | nil => intro _ i; rfl
  | cons w W' ih =>
    intro hnone i
    simp only [List.foldl_cons]
    rw [show lastWriteStep k i w = i from
      by simp [lastWriteStep, hnone w (List.mem_cons_self w W')]]
    exact ih (fun kv hm => hnone kv (List.mem_cons_of_mem w hm)) i

theorem applyWrites_idem (cf : String → Option JsonV) (W : List (String × JsonV)) :
    applyWrites (applyWrites cf W) W = applyWrites cf W := by
  funext k
  rw [applyWrites_apply, applyWrites_apply]
  by_cases hex : ∃ kv ∈ W, kv.1 = k
  · exact foldl_lastWriteStep_const k W hex _ _
  · push_neg at hex
    rw [foldl_lastWriteStep_id k W hex, foldl_lastWriteStep_id k W hex]

/-- The fill-if-unset idiom on a field holding an Option, filling with a
plain value. -/
def fillNone {α : Type} (cur : Option α) (v : α) : Option α :=
  if cur.isNone then some v else cur

/-- The fill-if-unset idiom filling with another Option. -/
def fillOpt {α : Type} (cur new : Option α) : Option α :=
  if cur.isNone then new else cur

theorem fillNone_isSome {α : Type} (cur : Option α) (v : α) : (fillNone cur v).isSome := by
  cases cur <;> simp [fillNone]

theorem fillNone_of_isSome {α : Type} (cur : Option α) (v : α) (h : cur.isSome = true) :
    fillNone cur v = cur := by
  cases cur <;> simp_all [fillNone]

theorem fillNone_idem {α : Type} (cur : Option α) (v : α) :
    fillNone (fillNone cur v) v = fillNone cur v :=
  fillNone_of_isSome _ _ (fillNone_isSome cur v)

theorem fillOpt_idem {α : Type} (cur new : Option α) :
    fillOpt (fillOpt cur new) new = fillOpt cur new := by
  cases cur <;> cases new <;> simp [fillOpt]

/-- Geographic enrichment data; the f64 coordinates are rationals. -/
structure GeographicData where
  latitude : ℚ
  longitude : ℚ
  timezone : Option String
  country : Option String
  region : Option String
deriving DecidableEq, Repr

/-- Contact enrichment data. -/
structure ContactData where
  name : Option String
  email : Option String
  phone : Option String
  department : Option String
deriving DecidableEq, Repr

/-- Business metadata. -/
structure BusinessMetadata where
  cost_center : Option String
  project_code : Option String
  environment : Option String
  priority : Option String
deriving DecidableEq, Repr

/-- EnrichmentData; the metadata HashMap is its entry list in iteration
order, the same order on both applications of the enricher. -/
structure EnrichmentData where
  geographic : Option GeographicData
  contact : Option ContactData
  business : Option BusinessMetadata
  tags : List String
  metadata : List (String × String)
deriving DecidableEq, Repr

/-- ObjectEnricher configuration. -/
structure ObjectEnricher where
  default_tags : List String
  environment_tags : List (String × List String)
deriving DecidableEq, Repr

/-- ObjectEnricher::new. -/
def ObjectEnricher.new : ObjectEnricher :=
  { default_tags := ["netgate", "enriched"]
    environment_tags :=
      [("production", ["prod", "critical"]),
        ("staging", ["staging", "test"]),
        ("development", ["dev", "non-prod"])] }

/-- HashMap::get on the environment tag table. -/
def envTagsGet : List (String × List String) → String → Option (List String)
  | [], _ => none
  | (k, v) :: rest, env => if k = env then some v else envTagsGet rest env

/-- The derived description of add_computed_fields_site: the joined parts,
or nothing when no part exists. -/
def descComposed (e : EnrichmentData) : Option String :=
  let desc_parts :=
    (match e.business.bind (fun b => b.environment) with
      | some env => ["Environment: " ++ env]
      | none => []) ++
    (match e.geographic.bind (fun g => g.country) with
      | some c => ["Country: " ++ c]
      | none => [])
  if desc_parts.isEmpty then none else some (String.intercalate ", " desc_parts)

/-- The derived facility code of add_computed_fields_site. -/
def facilityComputed (e : EnrichmentData) : Option String :=
  (e.business.bind (fun b => b.cost_center)).map (fun cc => "FAC-" ++ cc.toUpper)

/-- ObjectEnricher::add_computed_fields_site: each conditional assignment
on an unset field is the fill idiom. -/
def add_computed_fields_site (site : NetBoxSite) (e : EnrichmentData) : NetBoxSite :=
  let site :=
    match e.geographic with
    | some geo =>
      { site with latitude := fillNone site.latitude geo.latitude,
                  longitude := fillNone site.longitude geo.longitude }
    | none => site
  let site := { site with description := fillOpt site.description (descComposed e) }
  { site with facility := fillOpt site.facility (facilityComputed e) }

/-- The sequence of custom_fields assignments of a merge: the four business
keys when present, then the metadata entries. -/
def businessWrites (b : BusinessMetadata) (metadata : List (String × String)) :
    List (String × JsonV) :=
  (match b.cost_center with | some cc => [("cost_center", JsonV.str cc)] | none => []) ++
  (match b.project_code with | some p => [("project_code", JsonV.str p)] | none => []) ++
  (match b.environment with | some env => [("environment", JsonV.str env)] | none => []) ++
  (match b.priority with | some pr => [("priority", JsonV.str pr)] | none => []) ++
  metadata.map (fun kv => (kv.1, JsonV.str kv.2))

/-- The empty serde_json object (unwrap_or_default). -/
def emptyCf : String → Option JsonV := fun _ => none

/-- ObjectEnricher::merge_enrichment_data_site. -/
def merge_enrichment_data_site (site : NetBoxSite) (e : EnrichmentData) : NetBoxSite :=
  let site :=
    match e.geographic with
    | some geo =>
      { site with latitude := fillNone site.latitude geo.latitude,
                  longitude := fillNone site.longitude geo.longitude }
    | none => site
  let site :=
    match e.contact with
    | some contact =>
      { site with contact_name := fillOpt site.contact_name contact.name,
                  contact_email := fillOpt site.contact_email contact.email,
                  contact_phone := fillOpt site.contact_phone contact.phone }
    | none => site
  match e.business with
  | some b =>
    let cf := applyWrites (site.custom_fields.getD emptyCf) (businessWrites b e.metadata)
    { site with custom_fields := some cf }
  | none => site

/-- The status-derived tag. -/
def siteStatusTag : SiteStatus → String
  | .Active => "status-active"
  | .Planned => "status-planned"
  | .Retired => "status-retired"
  | .Staging => "status-staging"

/-- All tags add_business_tags_site pushes after the existing ones, in the
order the Rust code pushes them. -/
def siteTagAdditions (enr : ObjectEnricher) (e : EnrichmentData)
    (status : Option SiteStatus) : List String :=
  enr.default_tags ++
  (match e.business with
    | some b =>
      (match b.environment with
        | some env => (envTagsGet enr.environment_tags env).getD []
        | none => []) ++
      (match b.priority with | some p => ["priority-" ++ p.toLower] | none => []) ++
      (match b.cost_center with | some cc => ["cost-center-" ++ cc.toLower] | none => [])
    | none => []) ++
  (match e.geographic with
    | some geo =>
      (match geo.country with | some c => ["country-" ++ c.toLower] | none => []) ++
      (match geo.region with | some r => ["region-" ++ r.toLower] | none => [])
    | none => []) ++
  e.tags ++
  (match status with | some st => [siteStatusTag st] | none => [])

/-- ObjectEnricher::add_business_tags_site: extend, sort, dedup. -/
def add_business_tags_site (enr : ObjectEnricher) (site : NetBoxSite)
    (e : EnrichmentData) : NetBoxSite :=
  let tags := sortDedup (site.tags.getD [] ++ siteTagAdditions enr e site.status)
  { site with tags := some tags }

/-- ObjectEnricher::enrich_site. -/
def ObjectEnricher.enrich_site (enr : ObjectEnricher) (site : NetBoxSite)
    (e : EnrichmentData) : NetBoxSite :=
  add_business_tags_site enr (merge_enrichment_data_site (add_computed_fields_site site e) e) e

/-- The derived device name; today is the formatted current date the Rust
code interpolates. -/
def deviceNameComputed (e : EnrichmentData) (today : String) : Option String :=
  (e.business.bind (fun b => b.project_code)).map (fun p => "DEV-" ++ p ++ "-" ++ today)

/-- The derived asset tag. -/
def assetTagComputed (e : EnrichmentData) : Option String :=
  (e.business.bind (fun b => b.cost_center)).map (fun cc => "AT-" ++ cc)

/-- ObjectEnricher::add_computed_fields_device. -/
def add_computed_fields_device (device : NetBoxDevice) (e : EnrichmentData)
    (today : String) : NetBoxDevice :=
  let device := { device with name := fillOpt device.name (deviceNameComputed e today) }
  { device with asset_tag := fillOpt device.asset_tag (assetTagComputed e) }

/-- ObjectEnricher::merge_enrichment_data_device. -/
def merge_enrichment_data_device (device : NetBoxDevice) (e : EnrichmentData) : NetBoxDevice :=
  match e.business with
  | some b =>
    let cf := applyWrites (device.custom_fields.getD emptyCf) (businessWrites b e.metadata)
    { device with custom_fields := some cf }
  | none => device

/-- All tags add_business_tags_device pushes after the existing ones. -/
def deviceTagAdditions (enr : ObjectEnricher) (e : EnrichmentData) : List String :=
  enr.default_tags ++
  (match e.business with
    | some b =>
      (match b.environment with
        | some env => (envTagsGet enr.environment_tags env).getD []
        | none => []) ++
      (match b.priority with | some p => ["priority-" ++ p.toLower] | none => []) ++
      (match b.cost_center with | some cc => ["cost-center-" ++ cc.toLower] | none => [])
    | none => []) ++
  e.tags

/-- ObjectEnricher::add_business_tags_device. -/
def add_business_tags_device (enr : ObjectEnricher) (device : NetBoxDevice)
    (e : EnrichmentData) : NetBoxDevice :=
  let tags := sortDedup (device.tags.getD [] ++ deviceTagAdditions enr e)
  { device with tags := some tags }

/-- ObjectEnricher::enrich_device. -/
def ObjectEnricher.enrich_device (enr : ObjectEnricher) (device : NetBoxDevice)
    (e : EnrichmentData) (today : String) : NetBoxDevice :=
  add_business_tags_device enr
    (merge_enrichment_data_device (add_computed_fields_device device e today) e) e

/-- Claim C9: enrichment is idempotent — applying the enricher twice with
the same enrichment data equals applying it once, on every field of the
result including the final sorted, deduplicated tag set, for sites and for
devices. -/
theorem C9_enrichment_idempotent (enr : ObjectEnricher) (site : NetBoxSite)
    (device : NetBoxDevice) (e : EnrichmentData) (today : String) :
    enr.enrich_site (enr.enrich_site site e) e = enr.enrich_site site e ∧
    enr.enrich_device (enr.enrich_device device e today) e today =
      enr.enrich_device device e today := by
  constructor
  · cases hg : e.geographic <;> cases hc : e.contact <;> cases hb : e.business <;>
      simp [ObjectEnricher.enrich_site, add_computed_fields_site,
        merge_enrichment_data_site, add_business_tags_site, hg, hc, hb,
        fillNone_idem, fillOpt_idem, applyWrites_idem, sortDedup_append_stable]
  · cases hb : e.business <;>
      simp [ObjectEnricher.enrich_device, add_computed_fields_device,
        merge_enrichment_data_device, add_business_tags_device, hb,
        fillOpt_idem, applyWrites_idem, sortDedup_append_stable]

end Netgate
